import Mathlib

/-!
Verification development for the student-vocabulary-learning repository.

The embedding models the two core modules the specification talks about:

* `src/js/modules/api.js` — the Kie AI remote-job client (`KieAIClient.pollUntilComplete`,
  `APIManager.generateImage`), modelled with the remote's responses supplied as an
  explicit poll function and the progress callback recorded as an event trace.
* the business-logic module (`src/unnamed/part_000`) — `ConversationManager`,
  `VocabularyGenerator`, `PromptGenerator`, with `Date.now()` supplied as an explicit
  clock function.

JavaScript strings are modelled as `List Char`.  `String.prototype.replace` with a
global literal pattern and a string replacement is modelled faithfully, including the
special replacement patterns of the second argument (a dollar sign followed by a
dollar sign, an ampersand, a backquote or a quote).
-/

set_option maxHeartbeats 2000000
set_option maxRecDepth 100000

namespace VocabApp

/-- JavaScript strings, modelled as lists of characters. -/
abbrev JStr := List Char

/-- The backquote character, code point 96. -/
def backquoteChar : Char := Char.ofNat 96

/-- The quote character, code point 39. -/
def quoteChar : Char := Char.ofNat 39

/-- `sep.isPrefixOf l` agrees with the prefix relation. -/
theorem prefOf {sep l : JStr} : sep.isPrefixOf l = true ↔ sep <+: l :=
  List.isPrefixOf_iff_prefix

/-- `Occurs sep x` says the token `sep` occurs somewhere in `x`
(JavaScript `x.includes(sep)`). -/
def Occurs (sep x : JStr) : Prop := ∃ A B : JStr, x = A ++ sep ++ B

/-- Expansion of a JavaScript replacement string: in the second (string) argument of
`String.prototype.replace`, a dollar sign followed by another dollar sign inserts a
dollar sign, followed by an ampersand inserts the matched substring, followed by a
backquote inserts the portion of the subject before the match, and followed by a
quote inserts the portion after the match; anything else is copied literally. -/
def expandDollar (matched before after : JStr) : JStr → JStr
  | [] => []
  | [c] => [c]
  | c :: d :: rest =>
    if c = '$' then
      if d = '$' then '$' :: expandDollar matched before after rest
      else if d = '&' then matched ++ expandDollar matched before after rest
      else if d = backquoteChar then before ++ expandDollar matched before after rest
      else if d = quoteChar then after ++ expandDollar matched before after rest
      else c :: expandDollar matched before after (d :: rest)
    else c :: expandDollar matched before after (d :: rest)

/-- Fuelled splitter: splits a string at the leftmost, non-overlapping occurrences of
`sep`, exactly as a global regular-expression replace scans its subject.  `acc` holds
the (reversed) chunk read since the last match.  The fuel is always instantiated with
the length of the subject, which makes the recursion structural. -/
def splitSeqF (sep : JStr) : Nat → JStr → JStr → List JStr
  | _, acc, [] => [acc.reverse]
  | 0, acc, s => [acc.reverse ++ s]
  | fuel + 1, acc, c :: cs =>
    if sep ≠ [] ∧ sep.isPrefixOf (c :: cs) then
      acc.reverse :: splitSeqF sep fuel [] ((c :: cs).drop sep.length)
    else
      splitSeqF sep fuel (c :: acc) cs

/-- Split `s` at every occurrence of `sep` (leftmost, non-overlapping). -/
def splitSeq (sep s : JStr) : List JStr := splitSeqF sep s.length [] s

/-- Joins the split parts back, inserting the expanded replacement between

consecutive parts.  `before` is the original text preceding the current match, the
text following it is recovered as `List.intercalate sep ps`. -/
def joinExpGo (sep repl : JStr) : JStr → List JStr → JStr
  | _, [] => []
  | _, [p] => p
  | before, p :: ps =>
    p ++ expandDollar sep (before ++ p) (List.intercalate sep ps) repl
      ++ joinExpGo sep repl (before ++ p ++ sep) ps

/-- JavaScript `s.replace(new RegExp(escape(sep), "g"), repl)` for a literal token
`sep` and a plain string replacement `repl`. -/
def jsReplace (s sep repl : JStr) : JStr := joinExpGo sep repl [] (splitSeq sep s)

/-- JavaScript `hay.includes(needle)`. -/
def containsSeq (needle : JStr) : JStr → Bool
  | [] => needle.isEmpty
  | c :: cs => needle.isPrefixOf (c :: cs) || containsSeq needle cs

/-- Fuelled count of the leftmost, non-overlapping occurrences of `sep`. -/
def countSeqF (sep : JStr) : Nat → JStr → Nat
  | _, [] => 0
  | 0, _ => 0
  | fuel + 1, c :: cs =>
    if sep ≠ [] ∧ sep.isPrefixOf (c :: cs) then
      countSeqF sep fuel ((c :: cs).drop sep.length) + 1
    else
      countSeqF sep fuel cs

/-- Number of (leftmost, non-overlapping) occurrences of `sep` in `s`: the number of
sites a global replace of `sep` substitutes. -/
def countSeq (sep s : JStr) : Nat := countSeqF sep s.length s

/-- JavaScript values, as far as the result handling of `APIManager.generateImage`
needs them. -/
inductive JsVal where
  | undefined
  | null
  | boolean (b : Bool)
  | num (n : Int)
  | str (s : JStr)
  | arr (elems : List JsVal)
  | obj (fields : List (String × JsVal))

/-- Errors a call can reject with: `message` models `new Error(msg)` thrown by the
repository's own code, `typeError` a runtime TypeError from a property access on
`undefined`/`null`, and `parseError` a `JSON.parse` SyntaxError. -/
inductive JsError where
  | message (s : String)
  | typeError (s : String)
  | parseError (s : String)
deriving DecidableEq

/-- JavaScript truthiness. -/
def truthy : JsVal → Bool
  | .undefined => false
  | .null => false
  | .boolean b => b
  | .num n => n != 0
  | .str s => !s.isEmpty
  | .arr _ => true
  | .obj _ => true

/-- Property access `v.p`: throws a TypeError on `undefined`/`null`, looks the key up
on an object, and yields `undefined` on the remaining primitives (built-in properties
such as `length` are not needed by the modelled code and are not modelled). -/
def getField : JsVal → String → Except JsError JsVal
  | .undefined, p => .error (.typeError ("Cannot read properties of undefined (reading " ++ p ++ ")"))
  | .null, p => .error (.typeError ("Cannot read properties of null (reading " ++ p ++ ")"))
  | .obj fields, p => .ok (((fields.find? (fun kv => kv.1 == p)).map Prod.snd).getD .undefined)
  | _, _ => .ok .undefined

/-- Index access `v[i]`: throws a TypeError on `undefined`/`null`, indexes arrays and
strings (out-of-range gives `undefined`), and yields `undefined` on the rest. -/
def getIndex : JsVal → Nat → Except JsError JsVal
  | .undefined, _ => .error (.typeError "Cannot read properties of undefined (reading 0)")
  | .null, _ => .error (.typeError "Cannot read properties of null (reading 0)")
  | .arr elems, i => .ok ((elems.get? i).getD .undefined)
  | .str s, i =>
    match s.get? i with
    | some c => .ok (.str [c])
    | none => .ok .undefined
  | _, _ => .ok .undefined

/-- JavaScript `v || d` for an optional string `v` (absent and empty strings are
falsy). -/
def jsOrString (v : Option String) (d : String) : String :=
  match v with
  | some s => if s.isEmpty then d else s
  | none => d

/-- The `data` part of a `GET recordInfo` response.  `parsedResultJson` models the
outcome of `JSON.parse(data.resultJson)`: `Except.error` when the `resultJson` field
is missing or is not valid JSON (in both cases `JSON.parse` throws), `Except.ok v`
when it parses to the value `v`. -/
structure TaskData where
  state : String
  failMsg : Option String
  parsedResultJson : Except String JsVal

/-- One payload delivered to the `onProgress` callback of
`KieAIClient.pollUntilComplete`. -/
structure ProgressEvent where
  state : String
  attempts : Nat
  maxAttempts : Nat
deriving DecidableEq

/-- The polling loop of `KieAIClient.pollUntilComplete` (`src/js/modules/api.js`,
lines 87–123).  `polls n` is the outcome of the `queryTask` call made in the loop
iteration whose `attempts` counter equals `n` (`Except.error` when the query threw).
`remaining` is `maxAttempts - attempts`; `events` accumulates the payloads the
`onProgress` callback receives (the callback is invoked before the poll result is
evaluated).  A throw inside the `try` body — a `queryTask` failure or the
`state === 'fail'` throw — is caught by the `catch`, which rethrows only on the final
attempt (`attempts === maxAttempts - 1`) and otherwise consumes the attempt and
continues.  Exhausting the loop throws the timeout error. -/
def pollLoop (polls : Nat → Except JsError TaskData) (maxAttempts : Nat) :
    Nat → Nat → List ProgressEvent → Except JsError TaskData × List ProgressEvent
  | 0, _, events => (.error (.message "任务超时，请稍后重试"), events)
  | remaining + 1, attempts, events =>
    match polls attempts with
    | .ok result =>
      let events' := events ++ [⟨result.state, attempts + 1, maxAttempts⟩]
      if result.state = "success" then (.ok result, events')
      else if result.state = "fail" then
        if attempts = maxAttempts - 1 then
          (.error (.message (jsOrString result.failMsg "任务执行失败")), events')
        else pollLoop polls maxAttempts remaining (attempts + 1) events'
      else pollLoop polls maxAttempts remaining (attempts + 1) events'
    | .error e =>
      if attempts = maxAttempts - 1 then (.error e, events)
      else pollLoop polls maxAttempts remaining (attempts + 1) events

/-- `KieAIClient.pollUntilComplete(taskId, maxAttempts, interval, onProgress)`:
starts with `attempts = 0` and loops while `attempts < maxAttempts`.  The polling
interval only spends wall-clock time and is not modelled. -/
def pollUntilComplete (polls : Nat → Except JsError TaskData) (maxAttempts : Nat) :
    Except JsError TaskData × List ProgressEvent :=
  pollLoop polls maxAttempts maxAttempts 0 []

/-- Result extraction of `APIManager.generateImage` (`src/js/modules/api.js`, lines
269–277): `const resultJson = JSON.parse(result.data.resultJson); const imageUrl =
resultJson.resultUrls[0]; if (!imageUrl) throw new Error('图片生成失败，未获取到图片URL');
return imageUrl;`. -/
def extractImageUrl (parsed : Except String JsVal) : Except JsError JsVal :=
  match parsed with
  | .error e => .error (.parseError e)
  | .ok resultJson =>
    match getField resultJson "resultUrls" with
    | .error e => .error e
    | .ok urls =>
      match getIndex urls 0 with
      | .error e => .error e
      | .ok imageUrl =>
        if truthy imageUrl then .ok imageUrl
        else .error (.message "图片生成失败，未获取到图片URL")

/-- `APIManager.generateImage(prompt, options, onProgress)` (`src/js/modules/api.js`,
lines 236–278): rejects when no API key is configured, submits the task (`createTask`
is the outcome of `this.client.createTask`, yielding the task id), polls with
`maxAttempts = 30`, and extracts the first result URL.  The returned trace is the
sequence of `onProgress` payloads. -/
def generateImage (configured : Bool) (createTask : Except JsError String)
    (polls : Nat → Except JsError TaskData) :
    Except JsError JsVal × List ProgressEvent :=
  if !configured then (.error (.message "API Key未配置，请先设置API Key"), [])
  else
    match createTask with
    | .error e => (.error e, [])
    | .ok _taskId =>
      match pollUntilComplete polls 30 with
      | (.error e, events) => (.error e, events)
      | (.ok result, events) => (extractImageUrl result.parsedResultJson, events)


/-! ## Vocabulary and prompt generation (business-logic module) -/

/-- One vocabulary entry: `{pinyin, chinese}`. -/
structure VocabEntry where
  pinyin : JStr
  chinese : JStr
deriving DecidableEq

/-- The `vocabularies` object of a theme.  Fields that a given theme's JSON data may
omit are `Option` (`none` models an absent, `undefined` field); the zoo data uses
`animals` in place of `items`. -/
structure Vocabularies where
  characters : Option (List VocabEntry) := none
  items : Option (List VocabEntry) := none
  animals : Option (List VocabEntry) := none
  facilities : Option (List VocabEntry) := none
  environment : Option (List VocabEntry) := none
deriving DecidableEq

/-- A theme entry of the catalog. -/
structure Theme where
  name : JStr
  titles : List JStr
  vocabularies : Vocabularies
deriving DecidableEq

/-- The loaded catalog: `Object.entries(this.themes)` in insertion order. -/
abbrev Catalog := List (String × Theme)

/-- The supermarket theme of the built-in fallback catalog. -/
def supermarketTheme : Theme :=
  { name := "超市".data
    titles := ["走进超市".data, "快乐购物".data, "超市探险".data]
    vocabularies :=
      { characters := some [⟨"shōu yín yuán".data, "收银员".data⟩, ⟨"gù kè".data, "顾客".data⟩]
        items := some [⟨"píng guǒ".data, "苹果".data⟩, ⟨"niú nǎi".data, "牛奶".data⟩]
        facilities := some [⟨"huò jià".data, "货架".data⟩]
        environment := some [⟨"zhāo pái".data, "招牌".data⟩] } }

/-- `VocabularyGenerator.getDefaultThemes`: the built-in fallback catalog. -/
def getDefaultThemes : Catalog := [("超市", supermarketTheme)]

/-- `VocabularyGenerator.getThemeByName(themeName)`: `null` catalog gives `null`;
otherwise a first pass looks for an exact display-name match over the entries in
insertion order, and a second pass falls back to case-sensitive substring containment
in either direction (`theme.name.includes(themeName) || themeName.includes(theme.name)`),
again first match in insertion order. -/
def getThemeByName (themes : Option Catalog) (themeName : JStr) : Option Theme :=
  match themes with
  | none => none
  | some ts =>
    match ts.find? (fun kv => kv.2.name == themeName) with
    | some kv => some kv.2
    | none =>
      match ts.find? (fun kv => containsSeq themeName kv.2.name || containsSeq kv.2.name themeName) with
      | some kv => some kv.2
      | none => none

/-- `VocabularyGenerator.generateDynamicVocabulary(theme)`: the synthesized fallback
vocabulary for unknown themes. -/
def generateDynamicVocabulary (_theme : JStr) : Vocabularies :=
  { characters := some [⟨"rén".data, "人".data⟩, ⟨"hái zi".data, "孩子".data⟩]
    items := some [⟨"wù pǐn".data, "物品".data⟩, ⟨"wán jù".data, "玩具".data⟩]
    animals := none
    facilities := some [⟨"shè shī".data, "设施".data⟩]
    environment := some [⟨"huán jìng".data, "环境".data⟩] }

/-- `VocabularyGenerator.generateVocabulary(theme)`. -/
def generateVocabulary (themes : Option Catalog) (theme : JStr) : Vocabularies :=
  match getThemeByName themes theme with
  | some themeData => themeData.vocabularies
  | none => generateDynamicVocabulary theme

/-- `formatList` inside `PromptGenerator.formatVocabularies`: comma-and-space-joined
`"<pinyin> <chinese>"` entries. -/
def formatList (list : List VocabEntry) : JStr :=
  List.intercalate ", ".data (list.map (fun item => item.pinyin ++ " ".data ++ item.chinese))

/-- The three formatted category lists. -/
structure FormattedVocabs where
  characters : JStr
  items : JStr
  environment : JStr

/-- `PromptGenerator.formatVocabularies(vocabularies)`: `characters` from the
`characters` field, `items` from `items` falling back to the legacy `animals` field
(`vocabularies.items || vocabularies.animals || []`; a present-but-empty array is
truthy and is used as is), `environment` from `facilities` followed by
`environment`. -/
def formatVocabularies (vocabularies : Vocabularies) : FormattedVocabs :=
  { characters := formatList (vocabularies.characters.getD [])
    items := formatList (match vocabularies.items with
      | some l => l
      | none => vocabularies.animals.getD [])
    environment := formatList ((vocabularies.facilities.getD []) ++ (vocabularies.environment.getD [])) }

/-- The placeholder token `\x7b\x7b主题/场景\x7d\x7d`. -/
def themePlaceholder : JStr := "\x7b\x7b主题/场景\x7d\x7d".data

/-- The placeholder token `\x7b\x7b标题\x7d\x7d`. -/
def titlePlaceholder : JStr := "\x7b\x7b标题\x7d\x7d".data

/-- The placeholder token `\x7b\x7b核心角色与设施\x7d\x7d`. -/
def charsPlaceholder : JStr := "\x7b\x7b核心角色与设施\x7d\x7d".data

/-- The placeholder token `\x7b\x7b常见物品工具\x7d\x7d`. -/
def itemsPlaceholder : JStr := "\x7b\x7b常见物品工具\x7d\x7d".data

/-- The placeholder token `\x7b\x7b环境与装饰\x7d\x7d`. -/
def envPlaceholder : JStr := "\x7b\x7b环境与装饰\x7d\x7d".data

/-- `PromptGenerator.template`: the fixed prompt template, transcribed verbatim from
the constructor of `PromptGenerator`. -/
def templateText : String :=
"请生成一张儿童识字小报《\x7b\x7b主题/场景\x7d\x7d》，竖版 A4，学习小报版式，适合 5–9 岁孩子 认字与看图识物。

# 一、小报标题区（顶部）

**顶部居中大标题**：《\x7b\x7b标题\x7d\x7d》
* **风格**：十字小报 / 儿童学习报感
* **文本要求**：大字、醒目、卡通手写体、彩色描边
* **装饰**：周围添加与 \x7b\x7b主题/场景\x7d\x7d 相关的贴纸风装饰，颜色鲜艳

# 二、小报主体（中间主画面）

画面中心是一幅 **卡通插画风的「\x7b\x7b主题/场景\x7d\x7d」场景**：
* **整体气氛**：明亮、温暖、积极
* **构图**：物体边界清晰，方便对应文字，不要过于拥挤。

**场景分区与核心内容**
1.  **核心区域 A（主要对象）**：表现 \x7b\x7b主题/场景\x7d\x7d 的核心活动。
2.  **核心区域 B（配套设施）**：展示相关的工具或物品。
3.  **核心区域 C（环境背景）**：体现环境特征（如墙面、指示牌等）。

**主题人物**
* **角色**：1 位可爱卡通人物（职业/身份：与 \x7b\x7b主题/场景\x7d\x7d 匹配）。
* **动作**：正在进行与场景相关的自然互动。

# 三、必画物体与识字清单（Generated Content）

**请务必在画面中清晰绘制以下物体，并为其预留贴标签的位置：**

**1. 核心角色与设施：**
\x7b\x7b核心角色与设施\x7d\x7d

**2. 常见物品/工具：**
\x7b\x7b常见物品工具\x7d\x7d

**3. 环境与装饰：**
\x7b\x7b环境与装饰\x7d\x7d

*(注意：画面中的物体数量不限于此，但以上列表必须作为重点描绘对象)*

# 四、识字标注规则

对上述清单中的物体，贴上中文识字标签：
* **格式**：两行制（第一行拼音带声调，第二行简体汉字）。
* **样式**：彩色小贴纸风格，白底黑字或深色字，清晰可读。
* **排版**：标签靠近对应的物体，不遮挡主体。

# 五、画风参数
* **风格**：儿童绘本风 + 识字小报风
* **色彩**：高饱和、明快、温暖 (High Saturation, Warm Tone)
* **质量**：8k resolution, high detail, vector illustration style, clean lines."

/-- The template as a character list. -/
def templateData : JStr := templateText.data

/-- `PromptGenerator.generatePrompt(theme, title)`: resolves the vocabulary via
`generateVocabulary`, formats it, and substitutes the five placeholder tokens with
five chained global replaces, in source order: theme, title, characters, items,
environment. -/
def generatePrompt (themes : Option Catalog) (theme title : JStr) : JStr :=
  let vocabularies := generateVocabulary themes theme
  let formattedVocabs := formatVocabularies vocabularies
  jsReplace (jsReplace (jsReplace (jsReplace (jsReplace templateData
    themePlaceholder theme)
    titlePlaceholder title)
    charsPlaceholder formattedVocabs.characters)
    itemsPlaceholder formattedVocabs.items)
    envPlaceholder formattedVocabs.environment

/-! ## Conversation manager

`Date.now()` is supplied as an explicit clock: each operation receives a function
`clock : Nat → Nat` giving the successive `Date.now()` readings made during that
call, in order (`clock 0` is the first reading, and so on).  A real browser clock is
weakly monotone; in particular several consecutive readings routinely fall in the
same millisecond and are then equal. -/

/-- The `type` tag of a conversation message. -/
inductive MessageType where
  | system
  | user
  | ai
deriving DecidableEq

/-- A stored conversation message: the fields spread in by
`ConversationManager.addMessage` — `id` is `Date.now().toString()`, `timestamp` is a
second `Date.now()` reading. -/
structure Message where
  type : MessageType
  content : JStr
  prompt : Option JStr
  id : String
  timestamp : Nat
deriving DecidableEq

/-- The mutable fields of a `ConversationManager`. -/
structure ConvState where
  state : String
  currentTheme : Option JStr
  currentTitle : Option JStr
  messages : List Message
deriving DecidableEq

/-- The constructor state: `IDLE`, no theme, no title, no messages. -/
def initialConvState : ConvState :=
  { state := "IDLE", currentTheme := none, currentTitle := none, messages := [] }

/-- `ConversationManager.addMessage(message)` (lines 102–108): pushes the message
with `id: Date.now().toString()` and `timestamp: Date.now()` spread in; `idNow` and
`tsNow` are the two `Date.now()` readings. -/
def addMessage (cm : ConvState) (type : MessageType) (content : JStr)
    (prompt : Option JStr) (idNow tsNow : Nat) : ConvState :=
  { cm with messages := cm.messages ++ [⟨type, content, prompt, Nat.repr idNow, tsNow⟩] }

/-- `ConversationManager.startConversation()`: enters `ASKING_THEME`, clears theme,
title and history, and adds the system welcome message; returns the new state
together with the response `{state, message: this.messages[0]}`. -/
def startConversation (clock : Nat → Nat) : ConvState × (String × Option Message) :=
  let cm : ConvState :=
    { state := "ASKING_THEME", currentTheme := none, currentTitle := none, messages := [] }
  let cm := addMessage cm .system
    "请问这期儿童识字小报的主题/场景是什么？（如：超市、医院、公园）".data none (clock 0) (clock 1)
  (cm, (cm.state, cm.messages.get? 0))

/-- The message literal a `handleUserInput` response carries (the original object,
before `addMessage` spreads in `id`/`timestamp`). -/
structure OutMessage where
  type : MessageType
  content : JStr
  prompt : Option JStr
deriving DecidableEq

/-- The response object of `ConversationManager.handleUserInput`; fields a branch
does not set are `none`. -/
structure InputResponse where
  state : String
  message : OutMessage
  nextStep : Option String
  prompt : Option JStr
  theme : Option JStr
  title : Option JStr

/-- `ConversationManager.handleUserInput(input)` (lines 46–96): first appends the
user message to the history, then dispatches on the state; `ASKING_THEME` records the
theme and asks for a title, `ASKING_TITLE` records the title, generates the prompt
and emits the AI message, and every other state throws
`Error('Invalid conversation state')` — after the user message was already appended.
Returns the response (or the error) together with the manager state after the call.
A `null` current theme or title would be coerced to the string `"null"` by the
replace call, as in JavaScript. -/
def handleUserInput (themes : Option Catalog) (cm : ConvState) (input : JStr)
    (clock : Nat → Nat) : Except JsError InputResponse × ConvState :=
  let cm1 := addMessage cm .user input none (clock 0) (clock 1)
  if cm1.state = "ASKING_THEME" then
    let cm2 := { cm1 with currentTheme := some input, state := "ASKING_TITLE" }
    let titleContent := "请问小报的大标题是什么？（如：《走进超市》《快乐医院》）".data
    let cm3 := addMessage cm2 .system titleContent none (clock 2) (clock 3)
    (.ok { state := cm3.state, message := ⟨.system, titleContent, none⟩,
           nextStep := some "title", prompt := none, theme := none, title := none }, cm3)
  else if cm1.state = "ASKING_TITLE" then
    let cm2 := { cm1 with currentTitle := some input, state := "GENERATING" }
    let themeArg := match cm2.currentTheme with
      | some t => t
      | none => "null".data
    let titleArg := match cm2.currentTitle with
      | some t => t
      | none => "null".data
    let prompt := generatePrompt themes themeArg titleArg
    let promptContent := "提示词已生成，正在生成小报图片...".data
    let cm3 := addMessage cm2 .ai promptContent (some prompt) (clock 2) (clock 3)
    (.ok { state := cm3.state, message := ⟨.ai, promptContent, some prompt⟩,
           nextStep := none, prompt := some prompt, theme := cm2.currentTheme,
           title := cm2.currentTitle }, cm3)
  else
    (.error (.message "Invalid conversation state"), cm1)


/-- `polls` does not report success at index `j`. -/
def NonSuccess (polls : Nat → Except JsError TaskData) (j : Nat) : Prop :=
  ∀ d, polls j = .ok d → d.state ≠ "success"

theorem pollLoop_step_ok (polls : Nat → Except JsError TaskData) (M rem att : Nat)
    (evs : List ProgressEvent) (d : TaskData) (h : polls att = .ok d)
    (hs : d.state ≠ "success") (hfl : d.state = "fail" → att ≠ M - 1) :
    pollLoop polls M (rem + 1) att evs =
      pollLoop polls M rem (att + 1) (evs ++ [⟨d.state, att + 1, M⟩]) := by
  simp only [pollLoop, h]
  rw [if_neg hs]
  by_cases hf : d.state = "fail"
  · rw [if_pos hf, if_neg (hfl hf)]
  · rw [if_neg hf]

theorem pollLoop_step_err (polls : Nat → Except JsError TaskData) (M rem att : Nat)
    (evs : List ProgressEvent) (e : JsError) (h : polls att = .error e)
    (hl : att ≠ M - 1) :
    pollLoop polls M (rem + 1) att evs = pollLoop polls M rem (att + 1) evs := by
  simp only [pollLoop, h]
  rw [if_neg hl]

/-- The trace only ever grows: the accumulated events form a prefix of the final
trace. -/
theorem pollLoop_trace_extends (polls : Nat → Except JsError TaskData) (M : Nat) :
    ∀ rem att evs, evs <+: (pollLoop polls M rem att evs).2
  | 0, att, evs => by simp [pollLoop]
  | rem + 1, att, evs => by
    cases h : polls att with
    | ok d =>
      simp only [pollLoop, h]
      by_cases hs : d.state = "success"
      · rw [if_pos hs]
        exact ⟨[⟨d.state, att + 1, M⟩], rfl⟩
      · rw [if_neg hs]
        by_cases hf : d.state = "fail"
        · rw [if_pos hf]
          by_cases hl : att = M - 1
          · rw [if_pos hl]
            exact ⟨[⟨d.state, att + 1, M⟩], rfl⟩
          · rw [if_neg hl]
            exact ((evs.prefix_append [⟨d.state, att + 1, M⟩]).trans
              (pollLoop_trace_extends polls M rem (att + 1) _))
        · rw [if_neg hf]
          exact ((evs.prefix_append [⟨d.state, att + 1, M⟩]).trans
            (pollLoop_trace_extends polls M rem (att + 1) _))
    | error e =>
      simp only [pollLoop, h]
      by_cases hl : att = M - 1
      · rw [if_pos hl]
      · rw [if_neg hl]
        exact pollLoop_trace_extends polls M rem (att + 1) evs

/-- Running the loop from attempt `att` over `k` attempts none of which reports
success lands it at attempt `att + k`, with the events of those attempts appended. -/
theorem pollLoop_reach (polls : Nat → Except JsError TaskData) (M : Nat) :
    ∀ k att evs, att + k < M →
      (∀ j, att ≤ j → j < att + k → NonSuccess polls j) →
      ∃ evs', pollLoop polls M (M - att) att evs =
        pollLoop polls M (M - (att + k)) (att + k) (evs ++ evs')
  | 0, att, evs, _, _ => ⟨[], by simp⟩
  | k + 1, att, evs, hlt, hns => by
    have hrem : M - att = (M - (att + 1)) + 1 := by omega
    have hidx : att + 1 + k = att + (k + 1) := by omega
    cases h : polls att with
    | ok d =>
      have hs : d.state ≠ "success" := hns att le_rfl (by omega) d h
      obtain ⟨evs'', hrec⟩ := pollLoop_reach polls M k (att + 1)
        (evs ++ [⟨d.state, att + 1, M⟩]) (by omega)
        (fun j hj1 hj2 => hns j (by omega) (by omega))
      refine ⟨[⟨d.state, att + 1, M⟩] ++ evs'', ?_⟩
      rw [hrem, pollLoop_step_ok polls M (M - (att + 1)) att evs d h hs (fun _ => by omega),
        hrec, hidx, ← List.append_assoc]
    | error e =>
      obtain ⟨evs'', hrec⟩ := pollLoop_reach polls M k (att + 1) evs (by omega)
        (fun j hj1 hj2 => hns j (by omega) (by omega))
      refine ⟨evs'', ?_⟩
      rw [hrem, pollLoop_step_err polls M (M - (att + 1)) att evs e h (by omega), hrec, hidx]

/-- Any error the loop rejects with is the timeout, or stems from the final
attempt: the fail state reported there, or the query error raised there. -/
theorem pollLoop_error_source (polls : Nat → Except JsError TaskData) (M : Nat) :
    ∀ rem att evs e, att + rem = M →
      (pollLoop polls M rem att evs).1 = .error e →
      e = .message "任务超时，请稍后重试" ∨
      (∃ d, polls (M - 1) = .ok d ∧ d.state = "fail" ∧
        e = .message (jsOrString d.failMsg "任务执行失败")) ∨
      polls (M - 1) = .error e
  | 0, att, evs, e, hM, h => by
    left
    simpa [pollLoop] using h.symm
  | rem + 1, att, evs, e, hM, h => by
    cases hp : polls att with
    | ok d =>
      by_cases hs : d.state = "success"
      · rw [show pollLoop polls M (rem + 1) att evs =
            (.ok d, evs ++ [⟨d.state, att + 1, M⟩]) by simp [pollLoop, hp, hs]] at h
        simp at h
      · by_cases hf : d.state = "fail"
        · by_cases hl : att = M - 1
          · rw [show pollLoop polls M (rem + 1) att evs =
                (.error (.message (jsOrString d.failMsg "任务执行失败")),
                  evs ++ [⟨d.state, att + 1, M⟩]) by
                simp only [pollLoop, hp]
                rw [if_neg hs, if_pos hf, if_pos hl]] at h
            simp only [Except.error.injEq] at h
            exact Or.inr (Or.inl ⟨d, by rw [← hl]; exact hp, hf, h.symm⟩)
          · rw [pollLoop_step_ok polls M rem att evs d hp hs (fun _ => hl)] at h
            exact pollLoop_error_source polls M rem (att + 1) _ e (by omega) h
        · rw [pollLoop_step_ok polls M rem att evs d hp hs (fun hfail => absurd hfail hf)] at h
          exact pollLoop_error_source polls M rem (att + 1) _ e (by omega) h
    | error e' =>
      by_cases hl : att = M - 1
      · rw [show pollLoop polls M (rem + 1) att evs = (.error e', evs) by
          simp only [pollLoop, hp]
          rw [if_pos hl]] at h
        simp only [Except.error.injEq] at h
        exact Or.inr (Or.inr (by rw [← hl, hp, h]))
      · rw [pollLoop_step_err polls M rem att evs e' hp hl] at h
        exact pollLoop_error_source polls M rem (att + 1) _ e (by omega) h


/-- If the first `k` attempts are not successes and attempt `k + 1` gets a response,
the progress event of attempt `k + 1` (payload `attempts = k + 2`) appears in the
final trace: polling did continue past attempt `k`. -/
theorem pollLoop_continue_event (polls : Nat → Except JsError TaskData) (M k : Nat)
    (d' : TaskData) (hk : k + 1 < M)
    (hns : ∀ j, j < k + 1 → NonSuccess polls j) (hd' : polls (k + 1) = .ok d') :
    (⟨d'.state, k + 2, M⟩ : ProgressEvent) ∈ (pollUntilComplete polls M).2 := by
  obtain ⟨evs', hreach⟩ := pollLoop_reach polls M (k + 1) 0 [] (by omega)
    (fun j _ hj2 => hns j (by omega))
  have h0 : pollUntilComplete polls M = pollLoop polls M (M - (k + 1)) (k + 1) ([] ++ evs') := by
    show pollLoop polls M M 0 [] = _
    simp only [Nat.zero_add, Nat.sub_zero] at hreach
    exact hreach
  have hrem : M - (k + 1) = (M - (k + 2)) + 1 := by omega
  rw [h0, hrem]
  simp only [pollLoop, hd']
  by_cases hs : d'.state = "success"
  · rw [if_pos hs]
    simp
  · rw [if_neg hs]
    by_cases hf : d'.state = "fail"
    · rw [if_pos hf]
      by_cases hl : k + 1 = M - 1
      · rw [if_pos hl]
        simp
      · rw [if_neg hl]
        refine (pollLoop_trace_extends polls M (M - (k + 2)) (k + 2) _).subset ?_
        simp
    · rw [if_neg hf]
      refine (pollLoop_trace_extends polls M (M - (k + 2)) (k + 2) _).subset ?_
      simp

/-- Reaching the final attempt with a response there: what the loop does with it. -/
theorem pollLoop_final_ok (polls : Nat → Except JsError TaskData) (M : Nat)
    (d : TaskData) (hM : 1 ≤ M) (hns : ∀ j, j < M - 1 → NonSuccess polls j)
    (hd : polls (M - 1) = .ok d) (hf : d.state = "fail") :
    (pollUntilComplete polls M).1 = .error (.message (jsOrString d.failMsg "任务执行失败")) := by
  obtain ⟨evs', hreach⟩ := pollLoop_reach polls M (M - 1) 0 [] (by omega)
    (fun j _ hj2 => hns j (by omega))
  have h0 : pollUntilComplete polls M = pollLoop polls M (M - (M - 1)) (M - 1) ([] ++ evs') := by
    show pollLoop polls M M 0 [] = _
    simp only [Nat.zero_add, Nat.sub_zero] at hreach
    exact hreach
  have hrem : M - (M - 1) = 0 + 1 := by omega
  rw [h0, hrem]
  simp only [pollLoop, hd]
  have hs : d.state ≠ "success" := by rw [hf]; decide
  rw [if_neg hs, if_pos hf]
  simp

/-- Reaching the final attempt with a query error there: it propagates. -/
theorem pollLoop_final_err (polls : Nat → Except JsError TaskData) (M : Nat)
    (e : JsError) (hM : 1 ≤ M) (hns : ∀ j, j < M - 1 → NonSuccess polls j)
    (hd : polls (M - 1) = .error e) :
    (pollUntilComplete polls M).1 = .error e := by
  obtain ⟨evs', hreach⟩ := pollLoop_reach polls M (M - 1) 0 [] (by omega)
    (fun j _ hj2 => hns j (by omega))
  have h0 : pollUntilComplete polls M = pollLoop polls M (M - (M - 1)) (M - 1) ([] ++ evs') := by
    show pollLoop polls M M 0 [] = _
    simp only [Nat.zero_add, Nat.sub_zero] at hreach
    exact hreach
  have hrem : M - (M - 1) = 0 + 1 := by omega
  rw [h0, hrem]
  simp only [pollLoop, hd]
  simp

/-! ## Claims about the remote job client -/

/-- A remote that reports `fail` (with a failure message) on the first poll and
`processing` on the second. -/
def pollsC1cex : Nat → Except JsError TaskData := fun n =>
  if n = 0 then
    .ok { state := "fail", failMsg := some "quota exceeded", parsedResultJson := .error "SyntaxError" }
  else
    .ok { state := "processing", failMsg := none, parsedResultJson := .error "SyntaxError" }

/-- Claim C1, counterexample.  With `maxAttempts = 2` and a remote that reports
`fail` with `failMsg = "quota exceeded"` on the first poll and `processing` on the
second, the observed `fail` state does not end polling: a second poll request is
issued (the trace has a second progress event), and the call rejects with the
timeout message rather than with `RemoteJobFailed` carrying the remote-supplied
failure reason.  The `throw` for the `fail` state is executed inside the `try` block
and is caught by the surrounding `catch`, which swallows it on every attempt but the
final one. -/
theorem c1_counterexample :
    (pollUntilComplete pollsC1cex 2).2 = [⟨"fail", 1, 2⟩, ⟨"processing", 2, 2⟩] ∧
    (pollUntilComplete pollsC1cex 2).1 = .error (.message "任务超时，请稍后重试") ∧
    JsError.message "任务超时，请稍后重试" ≠ JsError.message "quota exceeded" :=
  ⟨rfl, rfl, by decide⟩

/-- Claim C1, amended: a `fail` state observed on the final attempt makes
`pollUntilComplete` reject with the remote-supplied `failMsg` (or the generic
message); a `fail` state observed on an earlier attempt is swallowed like any other
in-loop throw, and polling continues — the next attempt's poll is issued and its
progress event (payload `attempts = k + 2`) is delivered. -/
theorem c1_fail_handling :
    (∀ (polls : Nat → Except JsError TaskData) (M : Nat) (d : TaskData),
      1 ≤ M → (∀ j, j < M - 1 → NonSuccess polls j) →
      polls (M - 1) = .ok d → d.state = "fail" →
      (pollUntilComplete polls M).1 =
        .error (.message (jsOrString d.failMsg "任务执行失败"))) ∧
    (∀ (polls : Nat → Except JsError TaskData) (M k : Nat) (d d' : TaskData),
      k + 1 < M → (∀ j, j < k → NonSuccess polls j) →
      polls k = .ok d → d.state = "fail" → polls (k + 1) = .ok d' →
      (⟨d'.state, k + 2, M⟩ : ProgressEvent) ∈ (pollUntilComplete polls M).2) := by
  constructor
  · exact fun polls M d hM hns hd hf => pollLoop_final_ok polls M d hM hns hd hf
  · intro polls M k d d' hk hns hpk hf hd'
    refine pollLoop_continue_event polls M k d' hk ?_ hd'
    intro j hj
    rcases Nat.lt_or_ge j k with hjk | hjk
    · exact hns j hjk
    · have hjeq : j = k := by omega
      subst hjeq
      intro dd hdd
      rw [hpk] at hdd
      injection hdd with hdd'
      rw [← hdd', hf]
      decide

/-- Witness for `c1_fail_handling` at concrete inputs: a remote that always reports
`fail` with `failMsg = "quota exceeded"`. -/
def pollsC1W : Nat → Except JsError TaskData := fun _ =>
  .ok { state := "fail", failMsg := some "quota exceeded", parsedResultJson := .error "SyntaxError" }

/-- With one single attempt the `fail` state is final and its message propagates;
with three attempts a `fail` on the first attempt is followed by a second poll whose
progress event is delivered. -/
theorem c1_fail_handling_witness :
    (pollUntilComplete pollsC1W 1).1 = .error (.message "quota exceeded") ∧
    (⟨"fail", 2, 3⟩ : ProgressEvent) ∈ (pollUntilComplete pollsC1W 3).2 := by
  constructor
  · exact c1_fail_handling.1 pollsC1W 1
      ⟨"fail", some "quota exceeded", .error "SyntaxError"⟩
      (by decide) (fun j hj => absurd hj (by omega)) rfl rfl
  · exact c1_fail_handling.2 pollsC1W 3 0
      ⟨"fail", some "quota exceeded", .error "SyntaxError"⟩
      ⟨"fail", some "quota exceeded", .error "SyntaxError"⟩
      (by decide) (fun j hj => absurd hj (by omega)) rfl rfl rfl

/-- The spec's mock remote for C3: `processing` on the first two polls, then
`success` with `resultUrls = ["https://x/y.png"]`. -/
def pollsC3 : Nat → Except JsError TaskData := fun n =>
  if n < 2 then
    .ok { state := "processing", failMsg := none, parsedResultJson := .error "SyntaxError" }
  else
    .ok { state := "success", failMsg := none,
          parsedResultJson := .ok (.obj [("resultUrls", .arr [.str "https://x/y.png".data])]) }

/-- Claim C3: running `generateImage` (which polls with `maxAttempts = 30`) against
a remote that reports `processing` on the first two polls and then `success` with
`resultUrls = ["https://x/y.png"]` delivers exactly three progress events — each
emitted before the poll result is evaluated, with `attempts` payloads 1, 2, 3 in that
order — and resolves with `"https://x/y.png"`. -/
theorem c3_run_to_completion :
    generateImage true (.ok "task-1") pollsC3 =
      (.ok (.str "https://x/y.png".data),
       [⟨"processing", 1, 30⟩, ⟨"processing", 2, 30⟩, ⟨"success", 3, 30⟩]) := rfl

/-- Claim C4: (1) a query error on attempt `k + 1 < maxAttempts` is swallowed,
consumes that attempt, and polling continues — the next attempt's poll is issued and
its progress event delivered; (2) the same error raised on the final attempt
propagates to the caller; (3) any error the caller can see is the timeout or stems
from the final attempt (the query error raised there, or the `fail` state reported
there). -/
theorem c4_polling_errors :
    (∀ (polls : Nat → Except JsError TaskData) (M k : Nat) (e : JsError) (d' : TaskData),
      k + 1 < M → (∀ j, j < k → NonSuccess polls j) →
      polls k = .error e → polls (k + 1) = .ok d' →
      (⟨d'.state, k + 2, M⟩ : ProgressEvent) ∈ (pollUntilComplete polls M).2) ∧
    (∀ (polls : Nat → Except JsError TaskData) (M : Nat) (e : JsError),
      1 ≤ M → (∀ j, j < M - 1 → NonSuccess polls j) →
      polls (M - 1) = .error e → (pollUntilComplete polls M).1 = .error e) ∧
    (∀ (polls : Nat → Except JsError TaskData) (M : Nat) (e : JsError),
      (pollUntilComplete polls M).1 = .error e →
      e = .message "任务超时，请稍后重试" ∨
      (∃ d, polls (M - 1) = .ok d ∧ d.state = "fail" ∧
        e = .message (jsOrString d.failMsg "任务执行失败")) ∨
      polls (M - 1) = .error e) := by
  refine ⟨?_, ?_, ?_⟩
  · intro polls M k e d' hk hns hpk hd'
    refine pollLoop_continue_event polls M k d' hk ?_ hd'
    intro j hj
    rcases Nat.lt_or_ge j k with hjk | hjk
    · exact hns j hjk
    · have hjeq : j = k := by omega
      subst hjeq
      intro dd hdd
      rw [hpk] at hdd
      exact Except.noConfusion hdd
  · exact fun polls M e hM hns hd => pollLoop_final_err polls M e hM hns hd
  · intro polls M e h
    exact pollLoop_error_source polls M M 0 [] e (by omega) h

/-- A remote whose first query errors and whose second reports `processing`. -/
def pollsC4W : Nat → Except JsError TaskData := fun n =>
  if n = 0 then .error (.message "network down")
  else .ok { state := "processing", failMsg := none, parsedResultJson := .error "SyntaxError" }

/-- Witness for `c4_polling_errors` at concrete inputs. -/
theorem c4_polling_errors_witness :
    ((⟨"processing", 2, 3⟩ : ProgressEvent) ∈ (pollUntilComplete pollsC4W 3).2) ∧
    (pollUntilComplete (fun _ => .error (.message "boom")) 2).1 = .error (.message "boom") := by
  constructor
  · exact c4_polling_errors.1 pollsC4W 3 0 (.message "network down")
      ⟨"processing", none, .error "SyntaxError"⟩
      (by decide) (fun j hj => absurd hj (by omega)) rfl rfl
  · exact c4_polling_errors.2.1 (fun _ => .error (.message "boom")) 2 (.message "boom")
      (by decide) (fun j hj d hd => Except.noConfusion hd) rfl

/-- A remote reporting `success` at once: `pollUntilComplete` resolves on the first
attempt with a single progress event. -/
theorem pollConst_success (d : TaskData) (M : Nat) (hs : d.state = "success")
    (hM : 1 ≤ M) :
    pollUntilComplete (fun _ => .ok d) M = (.ok d, [⟨d.state, 1, M⟩]) := by
  obtain ⟨rem, hrem⟩ : ∃ rem, M = rem + 1 := ⟨M - 1, by omega⟩
  subst hrem
  show pollLoop _ (rem + 1) (rem + 1) 0 [] = _
  simp [pollLoop, hs]

/-- `generateImage` on an immediately successful remote reduces to the result
extraction. -/
theorem generateImage_success (d : TaskData) (tid : String) (hs : d.state = "success") :
    generateImage true (.ok tid) (fun _ => .ok d) =
      (extractImageUrl d.parsedResultJson, [⟨d.state, 1, 30⟩]) := by
  simp only [generateImage, Bool.not_true, Bool.false_eq_true, if_false,
    pollConst_success d 30 hs (by omega)]

/-- Claim C5, counterexample.  A `success` result whose parsed `resultJson` is an
object without a `resultUrls` member makes `generateImage` reject with a TypeError
(`resultJson.resultUrls` is `undefined`, and `undefined[0]` throws), not with the
`MissingResult` error the claim names. -/
theorem c5_counterexample :
    (generateImage true (.ok "task-1")
      (fun _ => .ok ⟨"success", none, .ok (.obj [])⟩)).1 =
      .error (.typeError "Cannot read properties of undefined (reading 0)") ∧
    JsError.typeError "Cannot read properties of undefined (reading 0)" ≠
      JsError.message "图片生成失败，未获取到图片URL" :=
  ⟨rfl, by decide⟩

/-- Claim C5, amended.  On a `success` result: (1) when the parsed `resultJson` has
a `resultUrls` array whose first entry is a non-empty string, `generateImage`
resolves with that entry; (2) when the array is empty, it rejects with the
`MissingResult` error `'图片生成失败，未获取到图片URL'`; (3) when the parsed object has no
`resultUrls` member, it rejects with a TypeError instead; (4) when `resultJson` is
missing or unparsable (so `JSON.parse` throws), that parse error propagates
instead. -/
theorem c5_success_result :
    (∀ (fm : Option String) (tid : String) (u : JStr) (rest : List JsVal), u ≠ [] →
      (generateImage true (.ok tid) (fun _ => .ok ⟨"success", fm,
        .ok (.obj [("resultUrls", .arr (.str u :: rest))])⟩)).1 = .ok (.str u)) ∧
    (∀ (fm : Option String) (tid : String),
      (generateImage true (.ok tid) (fun _ => .ok ⟨"success", fm,
        .ok (.obj [("resultUrls", .arr [])])⟩)).1 =
        .error (.message "图片生成失败，未获取到图片URL")) ∧
    (∀ (fm : Option String) (tid : String) (fields : List (String × JsVal)),
      fields.find? (fun kv => kv.1 == "resultUrls") = none →
      (generateImage true (.ok tid) (fun _ => .ok ⟨"success", fm,
        .ok (.obj fields)⟩)).1 =
        .error (.typeError "Cannot read properties of undefined (reading 0)")) ∧
    (∀ (fm : Option String) (tid : String) (pe : String),
      (generateImage true (.ok tid) (fun _ => .ok ⟨"success", fm, .error pe⟩)).1 =
        .error (.parseError pe)) := by
  refine ⟨?_, ?_, ?_, ?_⟩
  · intro fm tid u rest hu
    rw [generateImage_success ⟨"success", fm, _⟩ tid rfl]
    simp [extractImageUrl, getField, getIndex, truthy, hu]
  · intro fm tid
    rw [generateImage_success ⟨"success", fm, _⟩ tid rfl]
    simp [extractImageUrl, getField, getIndex, truthy]
  · intro fm tid fields hfind
    rw [generateImage_success ⟨"success", fm, _⟩ tid rfl]
    simp [extractImageUrl, getField, getIndex, truthy, hfind]
  · intro fm tid pe
    rw [generateImage_success ⟨"success", fm, _⟩ tid rfl]
    simp [extractImageUrl]

/-- Witness for `c5_success_result` at concrete inputs. -/
theorem c5_success_result_witness :
    (generateImage true (.ok "t") (fun _ => .ok ⟨"success", none,
      .ok (.obj [("resultUrls", .arr [.str "https://x/y.png".data])])⟩)).1 =
      .ok (.str "https://x/y.png".data) ∧
    (generateImage true (.ok "t") (fun _ => .ok ⟨"success", none,
      .ok (.obj [("resultUrls", .arr [])])⟩)).1 =
      .error (.message "图片生成失败，未获取到图片URL") ∧
    (generateImage true (.ok "t") (fun _ => .ok ⟨"success", none,
      .ok (.obj [("other", .null)])⟩)).1 =
      .error (.typeError "Cannot read properties of undefined (reading 0)") ∧
    (generateImage true (.ok "t") (fun _ => .ok ⟨"success", none,
      .error "Unexpected token"⟩)).1 = .error (.parseError "Unexpected token") := by
  refine ⟨?_, ?_, ?_, ?_⟩
  · exact c5_success_result.1 none "t" "https://x/y.png".data [] (by decide)
  · exact c5_success_result.2.1 none "t"
  · exact c5_success_result.2.2.1 none "t" [("other", .null)] rfl
  · exact c5_success_result.2.2.2 none "t" "Unexpected token"

/-! ## Claims about the conversation manager -/

/-- Claim C2, failing run (code bug).  `addMessage` assigns
`id: Date.now().toString()`, so two messages added in the same millisecond get the
same id.  Running `startConversation()` followed by `handleUserInput("超市")` with
every `Date.now()` reading equal to `1000` — the common case, since the user message
and the system reply are appended within the same millisecond — produces three
messages whose ids are all `"1000"`: the id sequence is not duplicate-free, violating
the uniqueness invariant. -/
theorem c2_duplicate_ids :
    ((handleUserInput (some getDefaultThemes) (startConversation (fun _ => 1000)).1
        "超市".data (fun _ => 1000)).2.messages.map (fun m => m.id)) =
      ["1000", "1000", "1000"] ∧
    ¬ List.Nodup ["1000", "1000", "1000"] :=
  ⟨rfl, by decide⟩

/-- Claim C9: feeding input while the conversation state is `IDLE` or `GENERATING`
rejects with the `Invalid conversation state` error and leaves the state, the
current theme and the current title unchanged. -/
theorem c9_invalid_state (themes : Option Catalog) (cm : ConvState) (input : JStr)
    (clock : Nat → Nat) (h : cm.state = "IDLE" ∨ cm.state = "GENERATING") :
    (handleUserInput themes cm input clock).1 =
      .error (.message "Invalid conversation state") ∧
    (handleUserInput themes cm input clock).2.state = cm.state ∧
    (handleUserInput themes cm input clock).2.currentTheme = cm.currentTheme ∧
    (handleUserInput themes cm input clock).2.currentTitle = cm.currentTitle := by
  have h1 : cm.state ≠ "ASKING_THEME" := by
    rcases h with h | h <;> rw [h] <;> decide
  have h2 : cm.state ≠ "ASKING_TITLE" := by
    rcases h with h | h <;> rw [h] <;> decide
  simp only [handleUserInput, addMessage]
  rw [if_neg h1, if_neg h2]
  exact ⟨rfl, rfl, rfl, rfl⟩

/-- Witness for `c9_invalid_state`: the initial (`IDLE`) manager state. -/
theorem c9_invalid_state_witness :
    (handleUserInput none initialConvState "hi".data (fun _ => 0)).1 =
      .error (.message "Invalid conversation state") ∧
    (handleUserInput none initialConvState "hi".data (fun _ => 0)).2.state =
      initialConvState.state ∧
    (handleUserInput none initialConvState "hi".data (fun _ => 0)).2.currentTheme =
      initialConvState.currentTheme ∧
    (handleUserInput none initialConvState "hi".data (fun _ => 0)).2.currentTitle =
      initialConvState.currentTitle :=
  c9_invalid_state none initialConvState "hi".data (fun _ => 0) (Or.inl rfl)

/-- Claim C10: `handleUserInput` appends the user message before dispatching on the
state, so a call made while `IDLE` or `GENERATING` rejects with the invalid-state
error and the history nevertheless grows by exactly one entry — the user-tagged
message carrying the input (its id and timestamp are the call's first two
`Date.now()` readings). -/
theorem c10_message_appended (themes : Option Catalog) (cm : ConvState) (input : JStr)
    (clock : Nat → Nat) (h : cm.state = "IDLE" ∨ cm.state = "GENERATING") :
    (handleUserInput themes cm input clock).2.messages =
      cm.messages ++ [⟨.user, input, none, Nat.repr (clock 0), clock 1⟩] ∧
    (handleUserInput themes cm input clock).1 =
      .error (.message "Invalid conversation state") := by
  have h1 : cm.state ≠ "ASKING_THEME" := by
    rcases h with h | h <;> rw [h] <;> decide
  have h2 : cm.state ≠ "ASKING_TITLE" := by
    rcases h with h | h <;> rw [h] <;> decide
  simp only [handleUserInput, addMessage]
  rw [if_neg h1, if_neg h2]
  exact ⟨rfl, rfl⟩

/-- Witness for `c10_message_appended`: a `GENERATING` manager state with one
message already recorded. -/
theorem c10_message_appended_witness :
    (handleUserInput none
      ⟨"GENERATING", some "超市".data, some "走进超市".data,
        [⟨.system, "x".data, none, "7", 7⟩]⟩ "again".data (fun n => n + 40)).2.messages =
      [⟨.system, "x".data, none, "7", 7⟩] ++
        [⟨.user, "again".data, none, Nat.repr 40, 41⟩] ∧
    (handleUserInput none
      ⟨"GENERATING", some "超市".data, some "走进超市".data,
        [⟨.system, "x".data, none, "7", 7⟩]⟩ "again".data (fun n => n + 40)).1 =
      .error (.message "Invalid conversation state") :=
  c10_message_appended none
    ⟨"GENERATING", some "超市".data, some "走进超市".data,
      [⟨.system, "x".data, none, "7", 7⟩]⟩ "again".data (fun n => n + 40) (Or.inr rfl)

/-! ## Claims about theme lookup -/

/-- Claim C8: for every loaded catalog and query, `getThemeByName` returns a theme
whose display name equals the query whenever one exists (exact matches beat any
substring match regardless of position); failing that, it returns the first entry in
catalog insertion order whose display name contains the query or is contained in it
(case-sensitive, either direction); failing both, it returns `none`. -/
theorem c8_theme_lookup (ts : Catalog) (q : JStr) :
    (∀ kv ∈ ts, kv.2.name = q →
      ∃ th : Theme, getThemeByName (some ts) q = some th ∧ th.name = q) ∧
    ((∀ kv ∈ ts, kv.2.name ≠ q) →
      ∀ (pre : Catalog) (kv : String × Theme) (post : Catalog),
        ts = pre ++ kv :: post →
        (containsSeq q kv.2.name || containsSeq kv.2.name q) = true →
        (∀ kv' ∈ pre, (containsSeq q kv'.2.name || containsSeq kv'.2.name q) = false) →
        getThemeByName (some ts) q = some kv.2) ∧
    ((∀ kv ∈ ts, kv.2.name ≠ q ∧
        (containsSeq q kv.2.name || containsSeq kv.2.name q) = false) →
      getThemeByName (some ts) q = none) := by
  refine ⟨?_, ?_, ?_⟩
  · intro kv hmem hname
    cases hfind : ts.find? (fun x => x.2.name == q) with
    | none =>
      exact absurd (beq_iff_eq.mpr hname) (List.find?_eq_none.mp hfind kv hmem)
    | some kv' =>
      have hp : (kv'.2.name == q) = true :=
        @List.find?_some _ (fun x => x.2.name == q) kv' ts hfind
      refine ⟨kv'.2, ?_, beq_iff_eq.mp hp⟩
      simp [getThemeByName, hfind]
  · intro hno pre kv post hts hkv hpre
    have hfind1 : ts.find? (fun x => x.2.name == q) = none :=
      List.find?_eq_none.mpr fun x hx => by
        simp only [beq_iff_eq]
        exact hno x hx
    have hfind2 :
        ts.find? (fun x => containsSeq q x.2.name || containsSeq x.2.name q) = some kv :=
      List.find?_eq_some.mpr ⟨hkv, pre, post, hts, fun a ha => by simp [hpre a ha]⟩
    simp [getThemeByName, hfind1, hfind2]
  · intro hall
    have hfind1 : ts.find? (fun x => x.2.name == q) = none :=
      List.find?_eq_none.mpr fun x hx => by
        simp only [beq_iff_eq]
        exact (hall x hx).1
    have hfind2 :
        ts.find? (fun x => containsSeq q x.2.name || containsSeq x.2.name q) = none :=
      List.find?_eq_none.mpr fun x hx => by simp [(hall x hx).2]
    simp [getThemeByName, hfind1, hfind2]

/-- A hospital theme used to exercise the lookup order. -/
def hospitalTheme : Theme := { name := "医院".data, titles := [], vocabularies := {} }

/-- A two-entry catalog: hospital first, supermarket second. -/
def c8Catalog : Catalog := [("医院", hospitalTheme), ("超市", supermarketTheme)]

/-- Witness for `c8_theme_lookup`: the query `"市"` matches no display name exactly,
the hospital entry does not substring-match it, and the supermarket entry is the
first (and only) substring match, so it is returned. -/
theorem c8_theme_lookup_witness :
    getThemeByName (some c8Catalog) "市".data = some supermarketTheme :=
  (c8_theme_lookup c8Catalog "市".data).2.1 (by decide)
    [("医院", hospitalTheme)] ("超市", supermarketTheme) [] rfl (by decide) (by decide)

/-! ## Replacement-machinery lemmas -/

/-- A replacement string without a dollar sign expands to itself. -/
theorem expandDollar_of_no_dollar (m b a : JStr) :
    ∀ repl : JStr, '$' ∉ repl → expandDollar m b a repl = repl
  | [], _ => rfl
  | [c], _ => rfl
  | c :: d :: rest, h => by
    have hc : c ≠ '$' := fun hh => h (hh ▸ List.mem_cons_self c (d :: rest))
    have h' : '$' ∉ d :: rest := fun hh => h (List.mem_cons_of_mem c hh)
    simp only [expandDollar]
    rw [if_neg hc, expandDollar_of_no_dollar m b a (d :: rest) h']

/-- `containsSeq` decides the infix relation. -/
theorem containsSeq_iff (needle : JStr) :
    ∀ hay : JStr, containsSeq needle hay = true ↔ needle <:+: hay
  | [] => by
    simp [containsSeq, List.isEmpty_iff, List.infix_nil]
  | c :: cs => by
    simp [containsSeq, prefOf, containsSeq_iff needle cs, List.infix_cons_iff]

/-- `Occurs` is the infix relation. -/
theorem occurs_iff {sep x : JStr} : Occurs sep x ↔ sep <:+: x := by
  constructor
  · rintro ⟨A, B, h⟩
    exact ⟨A, B, h.symm⟩
  · rintro ⟨A, B, h⟩
    exact ⟨A, B, h.symm⟩

/-- From a computed `containsSeq … = false`, the token does not occur. -/
theorem not_occurs_of_containsSeq {sep x : JStr} (h : containsSeq sep x = false) :
    ¬ Occurs sep x := by
  intro ho
  have ht := (containsSeq_iff sep x).mpr (occurs_iff.mp ho)
  rw [h] at ht
  exact Bool.false_ne_true ht

/-- A token none of whose characters is `g` is no prefix of `g :: y`. -/
theorem no_match_at_guard {sep : JStr} {g : Char} {y : JStr}
    (hsep : sep ≠ []) (hg : g ∉ sep) : ¬ sep <+: (g :: y) := by
  intro h
  cases sep with
  | nil => exact hsep rfl
  | cons s0 ss =>
    have := (List.cons_prefix_cons.mp h).1
    exact hg (this ▸ List.mem_cons_self s0 ss)

/-- A prefix of `u ++ v` that fits inside `u` is a prefix of `u`. -/
theorem pref_of_pref_append {sep u v : JStr} (h : sep <+: u ++ v)
    (hlen : sep.length ≤ u.length) : sep <+: u := by
  have ht := List.prefix_iff_eq_take.mp h
  rw [List.take_append_eq_append_take, Nat.sub_eq_zero_of_le hlen, List.take_zero,
    List.append_nil] at ht
  exact ht ▸ List.take_prefix sep.length u

/-- A prefix of `u ++ g :: v` that is longer than `u` contains `g`. -/
theorem mem_of_long_pref {sep u v : JStr} {g : Char} (h : sep <+: u ++ g :: v)
    (hlen : u.length < sep.length) : g ∈ sep := by
  have ht := List.prefix_iff_eq_take.mp h
  rw [List.take_append_eq_append_take] at ht
  obtain ⟨k, hk⟩ : ∃ k, sep.length - u.length = k + 1 :=
    ⟨sep.length - u.length - 1, by omega⟩
  rw [hk, List.take_succ_cons] at ht
  rw [ht]
  exact List.mem_append_right _ (List.mem_cons_self g _)

/-- If a token is no infix of `c :: w` it is no infix of `w`. -/
theorem not_infix_of_cons {sep w : JStr} {c : Char} (h : ¬ sep <:+: (c :: w)) :
    ¬ sep <:+: w := fun hh => h (List.infix_cons hh)

/-- Shape of the first part produced by the splitter: it begins with the reversed
accumulator. -/
theorem splitSeqF_head (sep : JStr) :
    ∀ (fuel : Nat) (acc x : JStr), ∃ t rest,
      splitSeqF sep fuel acc x = (acc.reverse ++ t) :: rest
  | fuel, acc, [] => ⟨[], [], by cases fuel <;> simp [splitSeqF]⟩
  | 0, acc, c :: cs => ⟨c :: cs, [], rfl⟩
  | fuel + 1, acc, c :: cs => by
    by_cases hm : sep ≠ [] ∧ sep.isPrefixOf (c :: cs)
    · refine ⟨[], splitSeqF sep fuel [] ((c :: cs).drop sep.length), ?_⟩
      simp only [splitSeqF]
      rw [if_pos hm]
      simp
    · obtain ⟨t, rest, ih⟩ := splitSeqF_head sep fuel (c :: acc) cs
      refine ⟨c :: t, rest, ?_⟩
      simp only [splitSeqF, if_neg hm]
      rw [ih, List.reverse_cons]
      simp

/-- Scanning a stretch `w'` that the token does not occur in, up to a guard
character `g2` the token does not contain, copies it into the accumulator without
any match. -/
theorem splitSeqF_block (sep : JStr) (g2 : Char) (hsep : sep ≠ []) (hg2 : g2 ∉ sep) :
    ∀ (w' : JStr) (fuel : Nat) (acc b : JStr), ¬ sep <:+: w' →
      (w' ++ g2 :: b).length ≤ fuel →
      ∃ f', splitSeqF sep fuel acc (w' ++ g2 :: b) =
        splitSeqF sep f' (g2 :: (w'.reverse ++ acc)) b ∧ b.length ≤ f'
  | [], fuel, acc, b, _, hfuel => by
    obtain ⟨f, rfl⟩ : ∃ f, fuel = f + 1 := ⟨fuel - 1, by simp at hfuel; omega⟩
    have hcond : ¬ (sep ≠ [] ∧ sep.isPrefixOf (g2 :: b)) :=
      fun hc => no_match_at_guard hsep hg2 (prefOf.mp hc.2)
    refine ⟨f, ?_, by simp at hfuel; omega⟩
    show splitSeqF sep (f + 1) acc (g2 :: b) = _
    simp only [splitSeqF, if_neg hcond]
    simp
  | c :: w'', fuel, acc, b, hw, hfuel => by
    obtain ⟨f, rfl⟩ : ∃ f, fuel = f + 1 := ⟨fuel - 1, by simp at hfuel; omega⟩
    have hx : (c :: w'') ++ g2 :: b = c :: (w'' ++ g2 :: b) := rfl
    have hcond : ¬ (sep ≠ [] ∧ sep.isPrefixOf (c :: (w'' ++ g2 :: b))) := by
      rintro ⟨-, hpre⟩
      have hp : sep <+: (c :: w'') ++ g2 :: b := prefOf.mp hpre
      rcases le_or_lt sep.length (c :: w'').length with hle | hlt
      · exact hw (pref_of_pref_append hp hle).isInfix
      · exact hg2 (mem_of_long_pref hp hlt)
    obtain ⟨f', ih, hb⟩ := splitSeqF_block sep g2 hsep hg2 w'' f (c :: acc) b
      (not_infix_of_cons hw) (by simp at hfuel ⊢; omega)
    refine ⟨f', ?_, hb⟩
    show splitSeqF sep (f + 1) acc (c :: (w'' ++ g2 :: b)) = _
    simp only [splitSeqF, if_neg hcond]
    rw [ih, List.reverse_cons]
    simp

/-- The protected-block survival of the splitter: if neither guard character occurs
in the token and the token does not occur in the protected stretch `w`, then some
produced part contains `g1 :: (w ++ g2 :: t)` intact. -/
theorem splitSeqF_survive (sep w : JStr) (g1 g2 : Char) (hsep : sep ≠ [])
    (hg1 : g1 ∉ sep) (hg2 : g2 ∉ sep) (hw : ¬ sep <:+: w) :
    ∀ (fuel : Nat) (a acc b : JStr), (a ++ g1 :: (w ++ g2 :: b)).length ≤ fuel →
      ∃ P u t rest, splitSeqF sep fuel acc (a ++ g1 :: (w ++ g2 :: b)) =
        P ++ (u ++ g1 :: (w ++ g2 :: t)) :: rest
  | 0, a, acc, b, hfuel => by
    simp at hfuel
  | fuel + 1, a, acc, b, hfuel => by
    cases a with
    | nil =>
      have hcond : ¬ (sep ≠ [] ∧ sep.isPrefixOf (g1 :: (w ++ g2 :: b))) :=
        fun hc => no_match_at_guard hsep hg1 (prefOf.mp hc.2)
      obtain ⟨f', hblock, -⟩ := splitSeqF_block sep g2 hsep hg2 w fuel (g1 :: acc) b hw
        (by simp at hfuel ⊢; omega)
      obtain ⟨t, rest, hhead⟩ := splitSeqF_head sep f' (g2 :: (w.reverse ++ (g1 :: acc))) b
      refine ⟨[], acc.reverse, t, rest, ?_⟩
      show splitSeqF sep (fuel + 1) acc (g1 :: (w ++ g2 :: b)) = _
      simp only [splitSeqF, if_neg hcond]
      rw [hblock, hhead]
      simp [List.reverse_cons, List.reverse_append, List.append_assoc]
    | cons c a' =>
      by_cases hm : sep ≠ [] ∧ sep.isPrefixOf (c :: (a' ++ g1 :: (w ++ g2 :: b)))
      · have hp : sep <+: (c :: a') ++ g1 :: (w ++ g2 :: b) := by
          rw [List.cons_append]
          exact prefOf.mp hm.2
        rcases le_or_lt sep.length (c :: a').length with hle | hlt
        · have hdrop : (c :: (a' ++ g1 :: (w ++ g2 :: b))).drop sep.length =
              ((c :: a').drop sep.length) ++ g1 :: (w ++ g2 :: b) := by
            rw [← List.cons_append, List.drop_append_eq_append_drop,
              Nat.sub_eq_zero_of_le hle, List.drop_zero]
          have hlen1 : 1 ≤ sep.length := List.length_pos.mpr hsep
          obtain ⟨P', u, t, rest, ih⟩ := splitSeqF_survive sep w g1 g2 hsep hg1 hg2 hw
            fuel ((c :: a').drop sep.length) [] b
            (by simp at hfuel ⊢; omega)
          refine ⟨acc.reverse :: P', u, t, rest, ?_⟩
          show splitSeqF sep (fuel + 1) acc (c :: (a' ++ g1 :: (w ++ g2 :: b))) = _
          simp only [splitSeqF, if_pos hm]
          rw [hdrop, ih]
          simp
        · exact absurd (mem_of_long_pref hp hlt) hg1
      · obtain ⟨P, u, t, rest, ih⟩ := splitSeqF_survive sep w g1 g2 hsep hg1 hg2 hw
          fuel a' (c :: acc) b (by simp at hfuel ⊢; omega)
        refine ⟨P, u, t, rest, ?_⟩
        show splitSeqF sep (fuel + 1) acc (c :: (a' ++ g1 :: (w ++ g2 :: b))) = _
        simp only [splitSeqF, if_neg hm]
        exact ih

/-- The replaced-site shape of the splitter: a guarded occurrence of the token
itself is split out, the part before the match ending in `g1` and the part after it
beginning with `g2`. -/
theorem splitSeqF_site (sep : JStr) (g1 g2 : Char) (hsep : sep ≠ [])
    (hg1 : g1 ∉ sep) (hg2 : g2 ∉ sep) :
    ∀ (fuel : Nat) (a acc b : JStr), (a ++ g1 :: (sep ++ g2 :: b)).length ≤ fuel →
      ∃ P u t rest, splitSeqF sep fuel acc (a ++ g1 :: (sep ++ g2 :: b)) =
        P ++ (u ++ [g1]) :: (g2 :: t) :: rest
  | 0, a, acc, b, hfuel => by
    simp at hfuel
  | fuel + 1, a, acc, b, hfuel => by
    cases a with
    | nil =>
      have hcond : ¬ (sep ≠ [] ∧ sep.isPrefixOf (g1 :: (sep ++ g2 :: b))) :=
        fun hc => no_match_at_guard hsep hg1 (prefOf.mp hc.2)
      have hlen1 : 1 ≤ sep.length := List.length_pos.mpr hsep
      obtain ⟨f2, rfl⟩ : ∃ f2, fuel = f2 + 1 := ⟨fuel - 1, by simp at hfuel; omega⟩
      obtain ⟨f3, rfl⟩ : ∃ f3, f2 = f3 + 1 := ⟨f2 - 1, by simp at hfuel; omega⟩
      obtain ⟨s0, ss, hS⟩ : ∃ s0 ss, sep = s0 :: ss := by
        cases sep with
        | nil => exact absurd rfl hsep
        | cons s0 ss => exact ⟨s0, ss, rfl⟩
      have hcond2 : sep ≠ [] ∧ sep.isPrefixOf (s0 :: (ss ++ g2 :: b)) := by
        refine ⟨hsep, prefOf.mpr ?_⟩
        rw [← List.cons_append, ← hS]
        exact List.prefix_append sep (g2 :: b)
      have hcond3 : ¬ (sep ≠ [] ∧ sep.isPrefixOf (g2 :: b)) :=
        fun hc => no_match_at_guard hsep hg2 (prefOf.mp hc.2)
      obtain ⟨t, rest, hhead⟩ := splitSeqF_head sep f3 [g2] b
      refine ⟨[], acc.reverse, t, rest, ?_⟩
      show splitSeqF sep (f3 + 1 + 1 + 1) acc (g1 :: (sep ++ g2 :: b)) = _
      simp only [splitSeqF, if_neg hcond]
      rw [show sep ++ g2 :: b = s0 :: (ss ++ g2 :: b) by rw [hS, List.cons_append]]
      simp only [splitSeqF, if_pos hcond2]
      rw [show s0 :: (ss ++ g2 :: b) = sep ++ (g2 :: b) by rw [hS, List.cons_append],
        List.drop_left]
      simp only [splitSeqF, if_neg hcond3]
      rw [hhead]
      simp [List.reverse_cons]
    | cons c a' =>
      by_cases hm : sep ≠ [] ∧ sep.isPrefixOf (c :: (a' ++ g1 :: (sep ++ g2 :: b)))
      · have hp : sep <+: (c :: a') ++ g1 :: (sep ++ g2 :: b) := by
          rw [List.cons_append]
          exact prefOf.mp hm.2
        rcases le_or_lt sep.length (c :: a').length with hle | hlt
        · have hdrop : (c :: (a' ++ g1 :: (sep ++ g2 :: b))).drop sep.length =
              ((c :: a').drop sep.length) ++ g1 :: (sep ++ g2 :: b) := by
            rw [← List.cons_append, List.drop_append_eq_append_drop,
              Nat.sub_eq_zero_of_le hle, List.drop_zero]
          have hlen1 : 1 ≤ sep.length := List.length_pos.mpr hsep
          obtain ⟨P', u, t, rest, ih⟩ := splitSeqF_site sep g1 g2 hsep hg1 hg2
            fuel ((c :: a').drop sep.length) [] b
            (by simp at hfuel ⊢; omega)
          refine ⟨acc.reverse :: P', u, t, rest, ?_⟩
          show splitSeqF sep (fuel + 1) acc (c :: (a' ++ g1 :: (sep ++ g2 :: b))) = _
          simp only [splitSeqF, if_pos hm]
          rw [hdrop, ih]
          simp
        · exact absurd (mem_of_long_pref hp hlt) hg1
      · obtain ⟨P, u, t, rest, ih⟩ := splitSeqF_site sep g1 g2 hsep hg1 hg2
          fuel a' (c :: acc) b (by simp at hfuel ⊢; omega)
        refine ⟨P, u, t, rest, ?_⟩
        show splitSeqF sep (fuel + 1) acc (c :: (a' ++ g1 :: (sep ++ g2 :: b))) = _
        simp only [splitSeqF, if_neg hm]
        exact ih

/-- Every split part appears intact in the joined output. -/
theorem joinExpGo_mem (sep repl : JStr) :
    ∀ (parts : List JStr) (before p : JStr), p ∈ parts →
      ∃ A B, joinExpGo sep repl before parts = A ++ p ++ B
  | [], _, p, h => absurd h (List.not_mem_nil p)
  | [p0], _, p, h => by
    rw [List.mem_singleton] at h
    exact ⟨[], [], by simp [joinExpGo, h]⟩
  | p0 :: p1 :: ps, before, p, h => by
    rcases List.mem_cons.mp h with h0 | h1
    · refine ⟨[], expandDollar sep (before ++ p0) (List.intercalate sep (p1 :: ps)) repl
        ++ joinExpGo sep repl (before ++ p0 ++ sep) (p1 :: ps), ?_⟩
      rw [h0]
      simp [joinExpGo, List.append_assoc]
    · obtain ⟨A, B, ih⟩ := joinExpGo_mem sep repl (p1 :: ps) (before ++ p0 ++ sep) p h1
      refine ⟨p0 ++ expandDollar sep (before ++ p0) (List.intercalate sep (p1 :: ps)) repl
        ++ A, B, ?_⟩
      simp only [joinExpGo]
      rw [ih]
      simp [List.append_assoc]

/-- Two consecutive split parts are joined with exactly the replacement between
them, for a dollar-free replacement. -/
theorem joinExpGo_pair (sep repl : JStr) (hd : '$' ∉ repl) :
    ∀ (P : List JStr) (before p q : JStr) (rest : List JStr),
      ∃ A B, joinExpGo sep repl before (P ++ p :: q :: rest) =
        A ++ p ++ repl ++ q ++ B
  | [], before, p, q, rest => by
    cases rest with
    | nil =>
      refine ⟨[], [], ?_⟩
      simp [joinExpGo, expandDollar_of_no_dollar _ _ _ repl hd, List.append_assoc]
    | cons r rs =>
      refine ⟨[], expandDollar sep (before ++ p ++ sep ++ q)
          (List.intercalate sep (r :: rs)) repl
        ++ joinExpGo sep repl (before ++ p ++ sep ++ q ++ sep) (r :: rs), ?_⟩
      simp only [List.nil_append, joinExpGo]
      rw [expandDollar_of_no_dollar _ _ _ repl hd]
      simp [List.append_assoc]
  | P0 :: P', before, p, q, rest => by
    obtain ⟨A, B, ih⟩ := joinExpGo_pair sep repl hd P' (before ++ P0 ++ sep) p q rest
    rcases hP : P' ++ p :: q :: rest with _ | ⟨z, zs⟩
    · exact absurd hP (by simp)
    · rw [hP] at ih
      refine ⟨P0 ++ expandDollar sep (before ++ P0) (List.intercalate sep (z :: zs)) repl
        ++ A, B, ?_⟩
      rw [List.cons_append, hP]
      simp only [joinExpGo]
      rw [ih]
      simp [List.append_assoc]

/-- Guarded-block survival of a global replace: a stretch `w` enclosed between two
guard characters the token does not contain, with the token not occurring in `w`,
reappears intact (with its guards) in the replaced string. -/
theorem jsReplace_survive (sep repl a w b : JStr) (g1 g2 : Char) (hsep : sep ≠ [])
    (hg1 : g1 ∉ sep) (hg2 : g2 ∉ sep) (hw : ¬ sep <:+: w) :
    ∃ A B, jsReplace (a ++ g1 :: (w ++ g2 :: b)) sep repl =
      A ++ g1 :: (w ++ g2 :: B) := by
  obtain ⟨P, u, t, rest, hsplit⟩ := splitSeqF_survive sep w g1 g2 hsep hg1 hg2 hw
    (a ++ g1 :: (w ++ g2 :: b)).length a [] b le_rfl
  have hmem : (u ++ g1 :: (w ++ g2 :: t)) ∈
      splitSeq sep (a ++ g1 :: (w ++ g2 :: b)) := by
    rw [splitSeq, hsplit]
    exact List.mem_append_right P (List.mem_cons_self _ _)
  obtain ⟨A, B, hjoin⟩ := joinExpGo_mem sep repl
    (splitSeq sep (a ++ g1 :: (w ++ g2 :: b))) [] (u ++ g1 :: (w ++ g2 :: t)) hmem
  refine ⟨A ++ u, t ++ B, ?_⟩
  show joinExpGo sep repl [] (splitSeq sep (a ++ g1 :: (w ++ g2 :: b))) = _
  rw [hjoin]
  simp [List.append_assoc]

/-- Guarded-site replacement of a global replace: an occurrence of the token
enclosed between two guard characters the token does not contain is replaced by the
(dollar-free) replacement, which appears between the guards in the output. -/
theorem jsReplace_site (sep repl a b : JStr) (g1 g2 : Char) (hsep : sep ≠ [])
    (hg1 : g1 ∉ sep) (hg2 : g2 ∉ sep) (hd : '$' ∉ repl) :
    ∃ A B, jsReplace (a ++ g1 :: (sep ++ g2 :: b)) sep repl =
      A ++ g1 :: (repl ++ g2 :: B) := by
  obtain ⟨P, u, t, rest, hsplit⟩ := splitSeqF_site sep g1 g2 hsep hg1 hg2
    (a ++ g1 :: (sep ++ g2 :: b)).length a [] b le_rfl
  obtain ⟨A, B, hjoin⟩ := joinExpGo_pair sep repl hd P [] (u ++ [g1]) (g2 :: t) rest
  refine ⟨A ++ u, t ++ B, ?_⟩
  show joinExpGo sep repl [] (splitSeq sep (a ++ g1 :: (sep ++ g2 :: b))) = _
  rw [splitSeq, hsplit, hjoin]
  simp [List.append_assoc]

/-! ## Claims about the prompt template engine -/

/-- Claim C6, counterexample.  The title is substituted with
`String.prototype.replace`, whose replacement string treats `$&` specially (it
inserts the matched token `\x7b\x7b标题\x7d\x7d` instead of the title text): with theme
`"超市"` and title `"$&"`, the generated prompt does not contain `"$&"` anywhere —
the title is not inserted verbatim. -/
theorem c6_counterexample :
    ¬ ∃ A B : JStr, generatePrompt (some getDefaultThemes) "超市".data "$&".data =
      A ++ "$&".data ++ B := by
  have h : containsSeq "$&".data
      (generatePrompt (some getDefaultThemes) "超市".data "$&".data) = false := by decide
  rintro ⟨A, B, hx⟩
  have ht := (containsSeq_iff "$&".data _).mpr ⟨A, B, hx.symm⟩
  rw [h] at ht
  exact Bool.false_ne_true ht

/-- Claim C6, amended: for every catalog and every theme string, and every title
that contains no dollar sign (the character special to the replacement mechanism)
and in which none of the three category placeholder tokens occurs, `generatePrompt`
returns a string containing the title verbatim in the title placeholder region —
between the `《`/`》` marks of the template's headline site.  (The function is total,
so it always returns a string and never throws.) -/
theorem c6_title_verbatim (themes : Option Catalog) (theme title : JStr)
    (h1 : '$' ∉ title) (h2 : ¬ Occurs charsPlaceholder title)
    (h3 : ¬ Occurs itemsPlaceholder title) (h4 : ¬ Occurs envPlaceholder title) :
    ∃ A B, generatePrompt themes theme title = A ++ '《' :: (title ++ '》' :: B) := by
  have hdec : templateData = templateData.take 84 ++ '《' ::
      (titlePlaceholder ++ '》' :: templateData.drop 92) := by decide
  obtain ⟨A1, B1, hs1⟩ : ∃ A B, jsReplace templateData themePlaceholder theme =
      A ++ '《' :: (titlePlaceholder ++ '》' :: B) := by
    rw [hdec]
    exact jsReplace_survive themePlaceholder theme _ titlePlaceholder _ '《' '》'
      (by decide) (by decide) (by decide)
      (fun hi => absurd ((containsSeq_iff _ _).mpr hi) (by decide))
  obtain ⟨A2, B2, hs2⟩ := jsReplace_site titlePlaceholder title A1 B1 '《' '》'
    (by decide) (by decide) (by decide) h1
  obtain ⟨A3, B3, hs3⟩ := jsReplace_survive charsPlaceholder
    (formatVocabularies (generateVocabulary themes theme)).characters A2 title B2 '《' '》'
    (by decide) (by decide) (by decide) (fun hi => h2 (occurs_iff.mpr hi))
  obtain ⟨A4, B4, hs4⟩ := jsReplace_survive itemsPlaceholder
    (formatVocabularies (generateVocabulary themes theme)).items A3 title B3 '《' '》'
    (by decide) (by decide) (by decide) (fun hi => h3 (occurs_iff.mpr hi))
  obtain ⟨A5, B5, hs5⟩ := jsReplace_survive envPlaceholder
    (formatVocabularies (generateVocabulary themes theme)).environment A4 title B4 '《' '》'
    (by decide) (by decide) (by decide) (fun hi => h4 (occurs_iff.mpr hi))
  refine ⟨A5, B5, ?_⟩
  show jsReplace (jsReplace (jsReplace (jsReplace (jsReplace templateData
    themePlaceholder theme) titlePlaceholder title)
    charsPlaceholder (formatVocabularies (generateVocabulary themes theme)).characters)
    itemsPlaceholder (formatVocabularies (generateVocabulary themes theme)).items)
    envPlaceholder (formatVocabularies (generateVocabulary themes theme)).environment = _
  rw [hs1, hs2, hs3, hs4, hs5]

/-- Witness for `c6_title_verbatim`: a theme unknown to the default catalog and a
plain title. -/
theorem c6_title_verbatim_witness :
    ∃ A B, generatePrompt (some getDefaultThemes) "医院".data "消防站奇遇".data =
      A ++ '《' :: ("消防站奇遇".data ++ '》' :: B) :=
  c6_title_verbatim (some getDefaultThemes) "医院".data "消防站奇遇".data
    (by decide)
    (not_occurs_of_containsSeq (by decide))
    (not_occurs_of_containsSeq (by decide))
    (not_occurs_of_containsSeq (by decide))

/-- Claim C7, counterexample.  The fixed template contains five distinct
placeholder tokens, not four, and the theme-name placeholder occurs at five
distinct sites, not two. -/
theorem c7_counterexample :
    countSeq themePlaceholder templateData = 5 ∧
    countSeq themePlaceholder templateData ≠ 2 ∧
    countSeq titlePlaceholder templateData = 1 ∧
    countSeq charsPlaceholder templateData = 1 ∧
    countSeq itemsPlaceholder templateData = 1 ∧
    countSeq envPlaceholder templateData = 1 :=
  ⟨by decide, by decide, by decide, by decide, by decide, by decide⟩

/-- Claim C7, amended: `generatePrompt` substitutes five placeholder tokens in the
fixed template — the theme name at five distinct sites, the title at one, and the
three formatted category lists at one distinct section each — and every occurrence
of every placeholder is replaced: on the default catalog with theme `超市` and title
`走进超市`, no occurrence of any placeholder token remains in the output. -/
theorem c7_placeholder_substitution :
    countSeq themePlaceholder templateData = 5 ∧
    countSeq titlePlaceholder templateData = 1 ∧
    countSeq charsPlaceholder templateData = 1 ∧
    countSeq itemsPlaceholder templateData = 1 ∧
    countSeq envPlaceholder templateData = 1 ∧
    countSeq themePlaceholder
      (generatePrompt (some getDefaultThemes) "超市".data "走进超市".data) = 0 ∧
    countSeq titlePlaceholder
      (generatePrompt (some getDefaultThemes) "超市".data "走进超市".data) = 0 ∧
    countSeq charsPlaceholder
      (generatePrompt (some getDefaultThemes) "超市".data "走进超市".data) = 0 ∧
    countSeq itemsPlaceholder
      (generatePrompt (some getDefaultThemes) "超市".data "走进超市".data) = 0 ∧
    countSeq envPlaceholder
      (generatePrompt (some getDefaultThemes) "超市".data "走进超市".data) = 0 :=
  ⟨by decide, by decide, by decide, by decide, by decide,
   by decide, by decide, by decide, by decide, by decide⟩

end VocabApp
